import Mathlib

/-!
Verification of the guardrail policy checker of the careercoachgpt
repository (`src/guardrails/app/policy.py` and `src/guardrails/app/app.py`).

The checker is a pure function from a text string to an ordered list of
violation messages.  We embed it shallowly:

* Python `pattern in lower` (substring containment) becomes `strContains`.
* The three `re` patterns of `PII_PATTERNS` are embedded as terms of a small
  regex syntax `Regex` covering exactly the constructs they use: single
  character classes, optional pieces, counted repetition of a character
  class, concatenation and the word-boundary anchor `\b`.  `re.search`
  truthiness (does a match exist anywhere?) becomes `reSearch`, a
  backtracking matcher that is existential over start positions and over
  the choices inside the pattern, which coincides with Python's
  backtracking engine for these patterns (no possessive/atomic constructs).
* Character classes (`\d`, `\w`, `\s`, lower-casing) are embedded at ASCII
  precision, which is exact on ASCII text; the concrete strings appearing
  in the spec and in the pattern tables are all ASCII.
* The FastAPI endpoints become pure functions: the lenient endpoint returns
  a `ValidationResponse` record, the strict endpoint returns an
  `Except` whose error carries the `HTTPException` detail.
-/

/-- Lower-casing as applied by `text.lower()` in `policy_check`
(character-wise ASCII lower-casing). -/
def pyLower (s : String) : String :=
  ⟨s.data.map Char.toLower⟩

/-- Python substring containment on character lists: `occursIn pat s` is
true iff `pat` occurs (contiguously) inside `s`. -/
def occursIn (pat : List Char) : List Char → Bool
  | [] => pat.isEmpty
  | c :: cs => pat.isPrefixOf (c :: cs) || occursIn pat cs

/-- `strContains hay pat` embeds Python's `pat in hay`. -/
def strContains (hay pat : String) : Bool :=
  occursIn pat.data hay.data

/-- Python `", ".join(words)`. -/
def joinComma : List String → String
  | [] => ""
  | [w] => w
  | w :: ws => w ++ ", " ++ joinComma ws

/-- The regex fragment used by the three patterns of `PII_PATTERNS`:
character classes, concatenation, `r?`, counted repetition `c{lo,hi}` of a
character class (`hi = none` meaning unbounded, so `c+` is `rep 1 none`),
and the word-boundary anchor `\b`. -/
inductive Regex where
  | wordB : Regex
  | pred : (Char → Bool) → Regex
  | concat : Regex → Regex → Regex
  | opt : Regex → Regex
  | rep : Nat → Option Nat → (Char → Bool) → Regex

/-- The `\w` class (word characters), ASCII fragment: letters, digits,
underscore. -/
def isWordChar (c : Char) : Bool :=
  c.isAlphanum || c == '_'

/-- Word-character test on an optional character; the edges of the string
count as non-word. -/
def isWordO : Option Char → Bool
  | none => false
  | some c => isWordChar c

/-- `\b` holds at a point iff exactly one of the neighbouring characters
(previous, next) is a word character. -/
def isBoundary (prev next : Option Char) : Bool :=
  isWordO prev != isWordO next

/-- Decrement an optional repetition bound. -/
def decOpt : Option Nat → Option Nat
  | none => none
  | some n => some (n - 1)

/-- Does the bound still allow one more iteration? -/
def hiOk : Option Nat → Bool
  | none => true
  | some n => decide (0 < n)

/-- Matcher for counted repetition of a character class, in
continuation-passing style.  `matchRep p lo hi prev rest k` is true iff
some number `n` of characters with `lo ≤ n ≤ hi` can be consumed from
`rest`, all satisfying `p`, such that the continuation `k` accepts the
remaining input (`prev` tracks the previously consumed character for
`\b`). -/
def matchRep (p : Char → Bool) : Nat → Option Nat → Option Char → List Char →
    (Option Char → List Char → Bool) → Bool
  | 0, _, prev, [], k => k prev []
  | _ + 1, _, _, [], _ => false
  | 0, hi, prev, c :: cs, k =>
      k prev (c :: cs) || (hiOk hi && p c && matchRep p 0 (decOpt hi) (some c) cs k)
  | lo + 1, hi, _, c :: cs, k =>
      p c && matchRep p lo (decOpt hi) (some c) cs k

/-- Backtracking matcher in continuation-passing style: `matchR r prev rest k`
is true iff some prefix of `rest` matches `r` and `k` accepts what is left. -/
def matchR : Regex → Option Char → List Char → (Option Char → List Char → Bool) → Bool
  | .wordB, prev, rest, k => isBoundary prev rest.head? && k prev rest
  | .pred p, _, rest, k =>
      match rest with
      | [] => false
      | c :: cs => p c && k (some c) cs
  | .concat a b, prev, rest, k => matchR a prev rest fun p r => matchR b p r k
  | .opt a, prev, rest, k => matchR a prev rest k || k prev rest
  | .rep lo hi p, prev, rest, k => matchRep p lo hi prev rest k

/-- Existential search over all start positions, embedding the truthiness
of `re.search(regex, text)`:  `prev` is the character just before the
current start position. -/
def searchAux (r : Regex) (prev : Option Char) (rest : List Char) : Bool :=
  matchR r prev rest (fun _ _ => true) ||
    match rest with
    | [] => false
    | c :: cs => searchAux r (some c) cs

/-- `reSearch r s` embeds `re.search(r, s) is not None`. -/
def reSearch (r : Regex) (s : List Char) : Bool :=
  searchAux r none s

/-- The character immediately preceding the remaining input after the
characters of `l` have been consumed, starting from previous character
`prev`. -/
def lastO (prev : Option Char) : List Char → Option Char
  | [] => prev
  | c :: cs => lastO (some c) cs

/-- The `\d` class, ASCII fragment: decimal digits. -/
def isDigitC (c : Char) : Bool := c.isDigit

/-- The `\s` class, ASCII fragment: space, tab, newline, carriage return,
vertical tab, form feed. -/
def isSpaceC (c : Char) : Bool :=
  c == ' ' || c == '\t' || c == '\n' || c == '\r' || c == '\x0b' || c == '\x0c'

/-- The class `[-.\s]` used as separator in the phone pattern. -/
def sepC (c : Char) : Bool := c == '-' || c == '.' || isSpaceC c

/-- The class `[A-Za-z0-9._%+-]` (local part of the email pattern). -/
def emailLocalC (c : Char) : Bool :=
  c.isAlphanum || c == '.' || c == '_' || c == '%' || c == '+' || c == '-'

/-- The class `[A-Za-z0-9.-]` (domain part of the email pattern). -/
def emailDomainC (c : Char) : Bool :=
  c.isAlphanum || c == '.' || c == '-'

/-- The class `[A-Z|a-z]` (top-level-domain part of the email pattern; note
it literally includes the bar character). -/
def emailTldC (c : Char) : Bool :=
  c.isAlpha || c == '|'

/-- `\b[A-Za-z0-9._%+-]+@[A-Za-z0-9.-]+\.[A-Z|a-z]{2,}\b`. -/
def emailRe : Regex :=
  .concat .wordB (.concat (.rep 1 none emailLocalC)
    (.concat (.pred (· == '@')) (.concat (.rep 1 none emailDomainC)
      (.concat (.pred (· == '.')) (.concat (.rep 2 none emailTldC) .wordB)))))

/-- `\b(?:\+?\d{1,3}[-.\s]?)?\(?\d{3}\)?[-.\s]?\d{3}[-.\s]?\d{4}\b`. -/
def phoneRe : Regex :=
  .concat .wordB
    (.concat (.opt (.concat (.opt (.pred (· == '+')))
        (.concat (.rep 1 (some 3) isDigitC) (.opt (.pred sepC)))))
      (.concat (.opt (.pred (· == '(')))
        (.concat (.rep 3 (some 3) isDigitC)
          (.concat (.opt (.pred (· == ')')))
            (.concat (.opt (.pred sepC))
              (.concat (.rep 3 (some 3) isDigitC)
                (.concat (.opt (.pred sepC))
                  (.concat (.rep 4 (some 4) isDigitC) .wordB))))))))

/-- `\b\d{3}-\d{2}-\d{4}\b`. -/
def ssnRe : Regex :=
  .concat .wordB (.concat (.rep 3 (some 3) isDigitC)
    (.concat (.pred (· == '-')) (.concat (.rep 2 (some 2) isDigitC)
      (.concat (.pred (· == '-')) (.concat (.rep 4 (some 4) isDigitC) .wordB)))))

/-- The banned discriminatory phrases, in table order. -/
def BANNED_PATTERNS : List String :=
  [ "because you are a woman",
    "because you are a man",
    "because you are muslim",
    "because you are christian",
    "because of your ethnicity",
    "because of your race",
    "because of your gender",
    "because of your age",
    "because of your disability",
    "due to your religion" ]

/-- The PII pattern table; a Python dict iterates in insertion order, so it
is embedded as an association list in that order. -/
def PII_PATTERNS : List (String × Regex) :=
  [ ("email", emailRe), ("phone", phoneRe), ("ssn", ssnRe) ]

/-- The unprofessional word list, in table order. -/
def unprofessional_words : List String :=
  ["stupid", "dumb", "idiot", "useless"]

/-- The message emitted for a matched banned phrase. -/
def discMsg (p : String) : String :=
  "Discriminatory reasoning detected: '" ++ p ++ "'"

/-- The message emitted for a matched PII kind. -/
def piiMsg (k : String) : String :=
  "PII detected: " ++ k

/-- `policy_check` of `src/guardrails/app/policy.py`: three passes
(discriminatory phrases on the lower-cased text, PII regexes on the
original text, unprofessional words on the lower-cased text), appending
their violations to one list in that order. -/
def policy_check (text : String) : List String :=
  let lower := pyLower text
  let v1 := BANNED_PATTERNS.filterMap fun pattern =>
    if strContains lower pattern then some (discMsg pattern) else none
  let v2 := PII_PATTERNS.filterMap fun kr =>
    if reSearch kr.2 text.data then some (piiMsg kr.1) else none
  let found := unprofessional_words.filter fun word => strContains lower word
  let v3 := if found.isEmpty then [] else ["Unprofessional language: " ++ joinComma found]
  v1 ++ v2 ++ v3

/-- The discriminatory pass of `policy_check`, as a function of its own. -/
def discriminatoryPass (text : String) : List String :=
  BANNED_PATTERNS.filterMap fun pattern =>
    if strContains (pyLower text) pattern then some (discMsg pattern) else none

/-- The PII pass of `policy_check`, as a function of its own. -/
def piiPass (text : String) : List String :=
  PII_PATTERNS.filterMap fun kr =>
    if reSearch kr.2 text.data then some (piiMsg kr.1) else none

/-- The unprofessional-language pass of `policy_check`, as a function of
its own. -/
def unprofessionalPass (text : String) : List String :=
  let found := unprofessional_words.filter fun word => strContains (pyLower text) word
  if found.isEmpty then [] else ["Unprofessional language: " ++ joinComma found]

/-- Response model of the lenient endpoint (`ValidationResponse` in
`app.py`). -/
structure ValidationResponse where
  status : String
  is_valid : Bool
  validated_text : Option String
  violations : Option (List String)
deriving DecidableEq, Repr

/-- `validate_text` of `app.py` (lenient mode): always returns a
structured response; `if violations:` branches on non-emptiness. -/
def validate_text (text : String) : ValidationResponse :=
  let violations := policy_check text
  if violations.isEmpty then
    { status := "OK", is_valid := true, validated_text := some text, violations := none }
  else
    { status := "VIOLATION", is_valid := false, validated_text := none,
      violations := some violations }

/-- Value found under the key `"text"` of the loosely-typed strict-mode
payload: a string, a number, absent (`payload.get` returned `None`), or
some other non-string value. -/
inductive PyVal where
  | vstr : String → PyVal
  | vnum : Int → PyVal
  | vnone : PyVal
  | vother : PyVal
deriving DecidableEq, Repr

/-- Detail of an `HTTPException(status_code=400, ...)` raised by the strict
endpoint: either a plain message string, or the structured payload
`{"error": ..., "violations": [...]}`. -/
inductive StrictDetail where
  | msg : String → StrictDetail
  | payload : String → List String → StrictDetail
deriving DecidableEq, Repr

/-- Success body of the strict endpoint: `{"status": "OK",
"validated_text": text}`. -/
structure StrictOk where
  status : String
  validated_text : String
deriving DecidableEq, Repr

/-- `validate_text_strict` of `app.py` (strict mode): rejects a missing or
non-string `text` field, raises on policy violations, otherwise returns the
OK body. -/
def validate_text_strict (textField : PyVal) : Except StrictDetail StrictOk :=
  match textField with
  | .vstr text =>
      let violations := policy_check text
      if violations.isEmpty then .ok { status := "OK", validated_text := text }
      else .error (.payload "POLICY_VIOLATION" violations)
  | _ => .error (.msg "Field 'text' must be a string.")

/-! ## Basic decomposition of `policy_check` into its three passes -/

/-- `policy_check` is the concatenation of its three passes. -/
theorem policy_check_eq_passes (s : String) :
    policy_check s = discriminatoryPass s ++ piiPass s ++ unprofessionalPass s := rfl

/-- The PII pass, unrolled over the concrete pattern table: one optional
entry per kind, in the order email, phone, ssn. -/
theorem piiPass_unrolled (s : String) :
    piiPass s =
      (if reSearch emailRe s.data then [piiMsg "email"] else []) ++
        (if reSearch phoneRe s.data then [piiMsg "phone"] else []) ++
        (if reSearch ssnRe s.data then [piiMsg "ssn"] else []) := by
  simp only [piiPass, PII_PATTERNS, List.filterMap_cons, List.filterMap_nil]
  cases reSearch emailRe s.data <;> cases reSearch phoneRe s.data <;>
    cases reSearch ssnRe s.data <;> simp

/-- The unprofessional pass contributes at most one entry. -/
theorem unprofessionalPass_length_le (s : String) :
    (unprofessionalPass s).length ≤ 1 := by
  simp only [unprofessionalPass]
  split <;> simp

/-! ## Claim theorems: output shape and endpoint contracts -/

/-- C1: for every input string, the checker's output is the concatenation,
in a fixed order, of three independent passes that all always run: first
one violation entry per banned phrase matched (in banned-table order),
then PII violation entries in the PII table's iteration order (email, then
phone, then ssn), then at most one combined unprofessional-language entry
at the end. -/
theorem policy_check_pass_order (s : String) :
    policy_check s =
      (BANNED_PATTERNS.filterMap fun pattern =>
        if strContains (pyLower s) pattern then some (discMsg pattern) else none) ++
        ((if reSearch emailRe s.data then [piiMsg "email"] else []) ++
          (if reSearch phoneRe s.data then [piiMsg "phone"] else []) ++
          (if reSearch ssnRe s.data then [piiMsg "ssn"] else [])) ++
        unprofessionalPass s ∧
      (unprofessionalPass s).length ≤ 1 :=
  ⟨by rw [policy_check_eq_passes, piiPass_unrolled]; rfl,
   unprofessionalPass_length_le s⟩

/-- C2: the lenient-mode response satisfies `is_valid == (violations is
empty)`: on a non-empty violation list the response is
`VIOLATION`/invalid with no validated text and exactly the checker's
violations; on an empty list it is `OK`/valid carrying the original text
and no violations. -/
theorem validate_text_contract (s : String) :
    ((validate_text s).is_valid = true ↔ policy_check s = []) ∧
      (policy_check s ≠ [] →
        validate_text s =
          { status := "VIOLATION", is_valid := false, validated_text := none,
            violations := some (policy_check s) }) ∧
      (policy_check s = [] →
        validate_text s =
          { status := "OK", is_valid := true, validated_text := some s,
            violations := none }) := by
  simp only [validate_text]
  rcases h : policy_check s with _ | ⟨v, vs⟩ <;> simp

/-- Witness for C2 at concrete inputs on both sides of the branch. -/
theorem validate_text_contract_witness :
    validate_text "" =
        { status := "OK", is_valid := true, validated_text := some "",
          violations := none } ∧
      validate_text "idiot" =
        { status := "VIOLATION", is_valid := false, validated_text := none,
          violations := some (policy_check "idiot") } :=
  ⟨(validate_text_contract "").2.2 (by decide),
   (validate_text_contract "idiot").2.1 (by decide)⟩

/-- C3: the checker is total: every string input yields a violation list
(the embedding is a total function; no exception/failure outcome exists in
its codomain). -/
theorem policy_check_total (s : String) :
    ∃ violations : List String, policy_check s = violations :=
  ⟨policy_check s, rfl⟩

/-- C4: in strict mode a missing or non-string `text` field yields the
client error `Field 'text' must be a string.` and no policy result; a
string with violations yields a client error carrying `POLICY_VIOLATION`
and exactly the checker's list; a clean string yields the OK body with the
original text. -/
theorem validate_text_strict_contract :
    (validate_text_strict .vnone =
          .error (.msg "Field 'text' must be a string.") ∧
        (∀ n : Int, validate_text_strict (.vnum n) =
          .error (.msg "Field 'text' must be a string.")) ∧
        validate_text_strict .vother =
          .error (.msg "Field 'text' must be a string.")) ∧
      (∀ s : String, policy_check s ≠ [] →
        validate_text_strict (.vstr s) =
          .error (.payload "POLICY_VIOLATION" (policy_check s))) ∧
      (∀ s : String, policy_check s = [] →
        validate_text_strict (.vstr s) =
          .ok { status := "OK", validated_text := s }) := by
  refine ⟨⟨rfl, fun n => rfl, rfl⟩, fun s h => ?_, fun s h => ?_⟩ <;>
    simp only [validate_text_strict] <;> simp [h]

/-- Witness for C4: the three outcomes at concrete payloads. -/
theorem validate_text_strict_contract_witness :
    validate_text_strict (.vnum 7) =
        .error (.msg "Field 'text' must be a string.") ∧
      validate_text_strict (.vstr "idiot") =
        .error (.payload "POLICY_VIOLATION" (policy_check "idiot")) ∧
      validate_text_strict (.vstr "hello") =
        .ok { status := "OK", validated_text := "hello" } :=
  ⟨validate_text_strict_contract.1.2.1 7,
   validate_text_strict_contract.2.1 "idiot" (by decide),
   validate_text_strict_contract.2.2 "hello" (by decide)⟩

/-- C8: the checker is deterministic: two invocations on the same string
yield identical violation lists (it is a pure function of its input). -/
theorem policy_check_deterministic (s t : String) (h : s = t) :
    policy_check s = policy_check t := by rw [h]

/-- Witness for C8 at a concrete input. -/
theorem policy_check_deterministic_witness :
    policy_check "hello" = policy_check "hello" :=
  policy_check_deterministic "hello" "hello" rfl

/-! ## Claim theorems: individual passes -/

/-- C5: the discriminatory pass tests every banned-table entry against the
lower-cased input without short-circuiting: each banned phrase occurring
as a substring produces its own entry, and an input containing both
`because you are a woman` and `because of your age` yields exactly those
two separate entries, in table order. -/
theorem discriminatory_no_short_circuit :
    (∀ (s p : String), p ∈ BANNED_PATTERNS → strContains (pyLower s) p = true →
      discMsg p ∈ policy_check s) ∧
      policy_check "I reject you because you are a woman and because of your age" =
        [discMsg "because you are a woman", discMsg "because of your age"] := by
  constructor
  · intro s p hp hc
    rw [policy_check_eq_passes]
    refine List.mem_append_left _ (List.mem_append_left _ ?_)
    exact List.mem_filterMap.mpr ⟨p, hp, by rw [hc]; rfl⟩
  · decide

/-- Witness for C5: a single banned phrase found in a concrete input. -/
theorem discriminatory_no_short_circuit_witness :
    discMsg "because of your age" ∈ policy_check "hired because of your age" :=
  discriminatory_no_short_circuit.1 "hired because of your age"
    "because of your age" (by decide) (by decide)

/-- C6: the unprofessional pass emits exactly one combined entry when at
least one of the four words occurs in the lower-cased input, listing the
matched words once each, comma-separated, in table order; and the input
`That was a stupid and dumb idea` yields exactly the single entry
`Unprofessional language: stupid, dumb`. -/
theorem unprofessional_single_combined :
    (∀ s : String,
      (∃ w ∈ unprofessional_words, strContains (pyLower s) w = true) →
      unprofessionalPass s =
        ["Unprofessional language: " ++
          joinComma (unprofessional_words.filter fun w => strContains (pyLower s) w)]) ∧
      policy_check "That was a stupid and dumb idea" =
        ["Unprofessional language: stupid, dumb"] := by
  constructor
  · intro s hs
    have hne : (unprofessional_words.filter fun w => strContains (pyLower s) w) ≠ [] := by
      rcases hs with ⟨w, hw, hc⟩
      intro hnil
      have := List.filter_eq_nil_iff.mp hnil w hw
      simp [hc] at this
    simp only [unprofessionalPass]
    rw [if_neg (by simpa [List.isEmpty_iff] using hne)]
  · decide

/-- Witness for C6: a concrete input matching one unprofessional word. -/
theorem unprofessional_single_combined_witness :
    unprofessionalPass "how dumb" = ["Unprofessional language: dumb"] := by
  have h := unprofessional_single_combined.1 "how dumb"
    ⟨"dumb", by decide, by decide⟩
  simpa using h

/-- C7: the empty string, and every string containing none of the banned
phrases, no PII-pattern match and none of the unprofessional words, yields
an empty violation list and a valid lenient response. -/
theorem policy_check_clean_empty :
    (policy_check "" = [] ∧ (validate_text "").is_valid = true) ∧
      ∀ s : String,
        (∀ p ∈ BANNED_PATTERNS, strContains (pyLower s) p = false) →
        (∀ kr ∈ PII_PATTERNS, reSearch kr.2 s.data = false) →
        (∀ w ∈ unprofessional_words, strContains (pyLower s) w = false) →
        policy_check s = [] ∧ (validate_text s).is_valid = true := by
  refine ⟨by decide, fun s h1 h2 h3 => ?_⟩
  have e1 : discriminatoryPass s = [] :=
    List.filterMap_eq_nil_iff.mpr fun p hp => by rw [h1 p hp]; rfl
  have e2 : piiPass s = [] :=
    List.filterMap_eq_nil_iff.mpr fun kr hkr => by rw [h2 kr hkr]; rfl
  have e3 : unprofessionalPass s = [] := by
    have hfil : (unprofessional_words.filter fun w => strContains (pyLower s) w) = [] :=
      List.filter_eq_nil_iff.mpr fun w hw => by simp [h3 w hw]
    simp only [unprofessionalPass, hfil]
    rfl
  have hpc : policy_check s = [] := by
    rw [policy_check_eq_passes, e1, e2, e3]; rfl
  exact ⟨hpc, by simp [validate_text, hpc]⟩

/-- Witness for C7: a concrete clean input. -/
theorem policy_check_clean_empty_witness :
    policy_check "hello" = [] ∧ (validate_text "hello").is_valid = true :=
  policy_check_clean_empty.2 "hello" (by decide) (by decide) (by decide)

/-! ## Claim theorem: size bound and distinctness of the violation list -/

/-- A guarded `filterMap` over a table is a sublist of mapping the whole
table. -/
theorem filterMapIf_sublist {α β : Type} (cond : α → Bool) (f : α → β)
    (l : List α) :
    List.Sublist (l.filterMap fun a => if cond a then some (f a) else none) (l.map f) := by
  induction l with
  | nil => simp
  | cons a l ih =>
      rw [List.filterMap_cons, List.map_cons]
      cases h : cond a
      · simpa [h] using List.Sublist.cons (f a) ih
      · simpa [h] using List.Sublist.cons₂ (f a) ih

/-- The discriminatory pass is a sublist of the ten possible messages. -/
theorem discriminatoryPass_sublist (s : String) :
    List.Sublist (discriminatoryPass s) (BANNED_PATTERNS.map discMsg) :=
  filterMapIf_sublist (fun p => strContains (pyLower s) p) discMsg BANNED_PATTERNS

/-- The PII pass is a sublist of the three possible messages. -/
theorem piiPass_sublist (s : String) :
    List.Sublist (piiPass s) (PII_PATTERNS.map fun kr => piiMsg kr.1) :=
 by
  have h := filterMapIf_sublist (fun kr : String × Regex => reSearch kr.2 s.data)
    (fun kr => piiMsg kr.1) PII_PATTERNS
  simpa [piiPass] using h

/-- Every discriminatory message starts with `D`. -/
theorem discMsg_head : ∀ m ∈ BANNED_PATTERNS.map discMsg, m.data.head? = some 'D' := by
  decide

/-- Every PII message starts with `P`. -/
theorem piiMsg_head : ∀ m ∈ PII_PATTERNS.map (fun kr => piiMsg kr.1),
    m.data.head? = some 'P' := by
  decide

/-- Every unprofessional-pass message starts with `U`. -/
theorem unprofessionalPass_head (s : String) :
    ∀ m ∈ unprofessionalPass s, m.data.head? = some 'U' := by
  simp only [unprofessionalPass]
  split
  · simp
  · intro m hm
    rw [List.mem_singleton.mp hm]
    rfl

/-- The unprofessional pass is duplicate-free (it has at most one entry). -/
theorem unprofessionalPass_nodup (s : String) : (unprofessionalPass s).Nodup := by
  simp only [unprofessionalPass]
  split <;> simp

/-- Lists of strings whose head characters differ are disjoint. -/
theorem head_disjoint {l₁ l₂ : List String} {c₁ c₂ : Char}
    (h₁ : ∀ m ∈ l₁, m.data.head? = some c₁)
    (h₂ : ∀ m ∈ l₂, m.data.head? = some c₂) (hne : c₁ ≠ c₂) :
    l₁.Disjoint l₂ := by
  intro a ha₁ ha₂
  have e₁ := h₁ a ha₁
  have e₂ := h₂ a ha₂
  rw [e₁] at e₂
  exact hne (Option.some.inj e₂)

/-- C9: for every input string, the violation list has at most 14 entries
(ten banned phrases, three PII kinds, one combined unprofessional message)
and its entries are pairwise distinct. -/
theorem policy_check_bound_nodup (s : String) :
    (policy_check s).length ≤ 14 ∧ (policy_check s).Nodup := by
  rw [policy_check_eq_passes]
  have hd := discriminatoryPass_sublist s
  have hp := piiPass_sublist s
  constructor
  · have l₁ : (discriminatoryPass s).length ≤ 10 := by
      simpa using hd.length_le
    have l₂ : (piiPass s).length ≤ 3 := by
      simpa using hp.length_le
    have l₃ := unprofessionalPass_length_le s
    simp only [List.length_append]
    omega
  · have n₁ : (discriminatoryPass s).Nodup := hd.nodup (by decide)
    have n₂ : (piiPass s).Nodup := hp.nodup (by decide)
    have n₃ := unprofessionalPass_nodup s
    have hd1 : ∀ m ∈ discriminatoryPass s, m.data.head? = some 'D' :=
      fun m hm => discMsg_head m (hd.subset hm)
    have hp1 : ∀ m ∈ piiPass s, m.data.head? = some 'P' :=
      fun m hm => piiMsg_head m (hp.subset hm)
    have hu1 := unprofessionalPass_head s
    rw [List.nodup_append, List.nodup_append]
    refine ⟨⟨n₁, n₂, head_disjoint hd1 hp1 (by decide)⟩, n₃, ?_⟩
    intro a ha hau
    rcases List.mem_append.mp ha with h | h
    · exact head_disjoint hd1 hu1 (by decide) h hau
    · exact head_disjoint hp1 hu1 (by decide) h hau

/-! ## Claim theorem: ten-digit runs are detected as phone PII -/

/-- A disjunction of booleans is true when its right disjunct is. -/
theorem bor_right {a b : Bool} (h : b = true) : (a || b) = true := by
  simp [h]

/-- `lastO` after an append ending in a singleton is that last character. -/
theorem lastO_append_singleton (prev : Option Char) (l : List Char) (c : Char) :
    lastO prev (l ++ [c]) = some c := by
  induction l generalizing prev with
  | nil => rfl
  | cons d ds ih => exact ih (some d)

/-- A decimal digit is a word character. -/
theorem isWordChar_of_digit {c : Char} (h : isDigitC c = true) :
    isWordChar c = true := by
  simp only [isWordChar, Char.isAlphanum, Bool.or_eq_true]
  exact Or.inl (Or.inr (by simpa [isDigitC] using h))

/-- If the pattern matches at the position reached after consuming the
characters of `l`, then the search over `l ++ rest` succeeds. -/
theorem searchAux_of_tail (r : Regex) (l : List Char) :
    ∀ (prev : Option Char) (rest : List Char),
      matchR r (lastO prev l) rest (fun _ _ => true) = true →
      searchAux r prev (l ++ rest) = true := by
  induction l with
  | nil =>
      intro prev rest h
      have h' : matchR r prev rest (fun _ _ => true) = true := h
      rw [List.nil_append, searchAux.eq_def, h']
      rfl
  | cons c cs ih =>
      intro prev rest h
      rw [List.cons_append, searchAux.eq_def]
      exact bor_right (ih (some c) rest h)

/-- Consuming exactly the characters of `ds` (all in class `p`) through a
counted repetition `p{n,n}` hands the continuation the rest of the input. -/
theorem matchRep_exact (p : Char → Bool) (n : Nat) (ds : List Char) :
    ∀ (rest : List Char) (prev : Option Char) (k : Option Char → List Char → Bool),
      ds.length = n → (∀ c ∈ ds, p c = true) →
      matchRep p n (some n) prev (ds ++ rest) k = k (lastO prev ds) rest := by
  induction ds generalizing n with
  | nil =>
      intro rest prev k hn hall
      subst hn
      cases rest with
      | nil => rfl
      | cons c cs => simp [matchRep, hiOk, lastO]
  | cons d ds ih =>
      intro rest prev k hn hall
      subst hn
      have hd : p d = true := hall d (List.mem_cons_self d ds)
      simp only [List.cons_append, List.length_cons, matchRep, hd, decOpt,
        Nat.add_sub_cancel, Bool.true_and]
      exact ih ds.length rest (some d) k rfl
        fun c hc => hall c (List.mem_cons_of_mem d hc)

/-- `isWordO` on `none`. -/
theorem isWordO_none : isWordO none = false := rfl

/-- `isWordO` on `some`. -/
theorem isWordO_some (c : Char) : isWordO (some c) = isWordChar c := rfl

/-- At the start of a nonempty digit run, `\b` holds when the preceding
character is not a word character. -/
theorem head_digit_boundary {A X : List Char} {prev : Option Char}
    (hne : A ≠ []) (hA : ∀ c ∈ A, isDigitC c = true)
    (hprev : isWordO prev = false) :
    isBoundary prev (A ++ X).head? = true := by
  cases A with
  | nil => exact absurd rfl hne
  | cons a A2 =>
      have ha := isWordChar_of_digit (hA a (List.mem_cons_self a A2))
      simp [isBoundary, isWordO_some, hprev, ha]

/-- After consuming a nonempty digit run, the preceding character is a
word character. -/
theorem lastO_digits_word (p0 : Option Char) (C : List Char) :
    C ≠ [] → (∀ c ∈ C, isDigitC c = true) → isWordO (lastO p0 C) = true := by
  induction C generalizing p0 with
  | nil => intro hne _; exact absurd rfl hne
  | cons c cs ih =>
      intro _ hC
      cases cs with
      | nil =>
          have hc := isWordChar_of_digit (hC c (List.mem_cons_self c []))
          simpa [lastO, isWordO] using hc
      | cons d ds =>
          exact ih (some c) (by simp)
            fun x hx => hC x (List.mem_cons_of_mem c hx)

/-- At the end of a nonempty digit run, `\b` holds when the following
character (if any) is not a word character. -/
theorem lastO_boundary_end {C post : List Char} {x : Option Char}
    (hne : C ≠ []) (hC : ∀ c ∈ C, isDigitC c = true)
    (hpost : ∀ c, post.head? = some c → isWordChar c = false) :
    isBoundary (lastO x C) post.head? = true := by
  have hw := lastO_digits_word x C hne hC
  cases hp : post.head? with
  | none => simp [isBoundary, isWordO_none, hw, hp]
  | some q => simp [isBoundary, isWordO_some, hw, hp, hpost q hp]

/-- A ten-digit run bracketed by non-word context matches the phone
pattern at that position. -/
theorem phone_match (prev : Option Char) (digits post : List Char)
    (hlen : digits.length = 10) (hdig : ∀ c ∈ digits, isDigitC c = true)
    (hprev : isWordO prev = false)
    (hpost : ∀ c, post.head? = some c → isWordChar c = false) :
    matchR phoneRe prev (digits ++ post) (fun _ _ => true) = true := by
  obtain ⟨A, D, rfl, hA3⟩ : ∃ A D, digits = A ++ D ∧ A.length = 3 :=
    ⟨digits.take 3, digits.drop 3, (List.take_append_drop 3 digits).symm,
      by rw [List.length_take, hlen]; rfl⟩
  have hD7 : D.length = 7 := by
    rw [List.length_append, hA3] at hlen; omega
  obtain ⟨B, C, rfl, hB3⟩ : ∃ B C, D = B ++ C ∧ B.length = 3 :=
    ⟨D.take 3, D.drop 3, (List.take_append_drop 3 D).symm,
      by rw [List.length_take, hD7]; rfl⟩
  have hC4 : C.length = 4 := by
    rw [List.length_append, hB3] at hD7; omega
  have hAd : ∀ c ∈ A, isDigitC c = true :=
    fun c hc => hdig c (by simp [hc])
  have hBd : ∀ c ∈ B, isDigitC c = true :=
    fun c hc => hdig c (by simp [hc])
  have hCd : ∀ c ∈ C, isDigitC c = true :=
    fun c hc => hdig c (by simp [hc])
  have hAne : A ≠ [] := by intro h; rw [h] at hA3; simp at hA3
  have hCne : C ≠ [] := by intro h; rw [h] at hC4; simp at hC4
  rw [List.append_assoc, List.append_assoc]
  simp only [phoneRe, matchR]
  rw [head_digit_boundary hAne hAd hprev, Bool.true_and]
  apply bor_right
  apply bor_right
  rw [matchRep_exact isDigitC 3 A _ _ _ hA3 hAd]
  apply bor_right
  apply bor_right
  rw [matchRep_exact isDigitC 3 B _ _ _ hB3 hBd]
  apply bor_right
  rw [matchRep_exact isDigitC 4 C _ _ _ hC4 hCd]
  rw [lastO_boundary_end hCne hCd hpost]
  rfl

/-- C10: every input containing a run of exactly ten consecutive decimal
digits not adjacent to any word character (letter, digit, or underscore;
the adjacent characters are additionally required to be ASCII, where the
embedded ASCII word-character class agrees with the source's) is reported
as phone PII; in particular `policy_check "1234567890"` is exactly
`["PII detected: phone"]`. -/
theorem phone_digit_run_detected :
    (∀ (pre digits post : List Char),
      digits.length = 10 →
      (∀ c ∈ digits, isDigitC c = true) →
      (pre = [] ∨ ∃ pre0 c, pre = pre0 ++ [c] ∧ isWordChar c = false ∧ c.toNat < 128) →
      (post = [] ∨ ∃ c post0, post = c :: post0 ∧ isWordChar c = false ∧ c.toNat < 128) →
      piiMsg "phone" ∈ policy_check (String.mk (pre ++ digits ++ post))) ∧
      policy_check "1234567890" = [piiMsg "phone"] := by
  constructor
  · intro pre digits post hlen hdig hpre hpost
    have hprev : isWordO (lastO none pre) = false := by
      rcases hpre with rfl | ⟨pre0, c, rfl, hc, _⟩
      · rfl
      · rw [lastO_append_singleton, isWordO_some]; exact hc
    have hpost2 : ∀ c, post.head? = some c → isWordChar c = false := by
      rcases hpost with rfl | ⟨c, post0, rfl, hc, _⟩
      · intro c h; simp at h
      · intro c2 h
        rw [List.head?_cons] at h
        rw [← Option.some.inj h]
        exact hc
    have hm := phone_match (lastO none pre) digits post hlen hdig hprev hpost2
    have hsearch : reSearch phoneRe (pre ++ (digits ++ post)) = true :=
      searchAux_of_tail phoneRe pre none (digits ++ post) hm
    have hdata : (String.mk (pre ++ digits ++ post)).data = pre ++ (digits ++ post) :=
      List.append_assoc pre digits post
    rw [policy_check_eq_passes]
    refine List.mem_append_left _ (List.mem_append_right _ ?_)
    rw [piiPass_unrolled]
    refine List.mem_append_left _ (List.mem_append_right _ ?_)
    rw [hdata, hsearch]
    simp
  · decide

/-- Witness for C10: a concrete ten-digit run between non-word ASCII
characters, and with surrounding text. -/
theorem phone_digit_run_detected_witness :
    piiMsg "phone" ∈
      policy_check (String.mk
        (['x', ':'] ++ ['9', '8', '7', '6', '5', '4', '3', '2', '1', '0'] ++ ['!'])) :=
  phone_digit_run_detected.1 ['x', ':']
    ['9', '8', '7', '6', '5', '4', '3', '2', '1', '0'] ['!']
    (by decide) (by decide)
    (Or.inr ⟨['x'], ':', rfl, by decide, by decide⟩)
    (Or.inr ⟨'!', [], rfl, by decide, by decide⟩)
